import Mathlib

/-!
Verification of the routing, remapping, transfer-authorization and proxying
core of a DNS reverse proxy (`dns_reverse_proxy.go`).

Domain names and addresses are modelled as lists of characters (`Str`).
DNS messages keep only the fields the core reads or writes: the question
section (name and query type of each question), the answer section (owner
name and an opaque payload for each record), and an opaque `meta` field
standing for every other piece of message content (flags, counts, other
sections), which the core never touches.

The two external effects of the proxy — the client exchange
(`dns.Client.Exchange`) and the zone-transfer session
(`dns.Transfer.In` / `dns.Transfer.Out`) — are passed in as explicit
oracle values describing what the upstream did, so the handler becomes a
pure function from (configuration, client address, transport, query,
oracles) to an observable outcome.  A Go runtime panic (out-of-range
index, nil dereference) is modelled by the dedicated outcome `panicked`.
-/

/-- Character-list model of a Go string. -/
abbrev Str := List Char

/-- Convert a Lean string literal to the `Str` model. -/
def strL (s : String) : Str := s.toList

/-- One entry of the question section: `dns.Question`'s `Name` and `Qtype`. -/
structure Question where
  name : Str
  qtype : Nat
deriving DecidableEq

/-- One answer record: the owner name (`Header().Name`) the proxy may rewrite,
and an opaque payload `rdata` for everything it never touches. -/
structure RR where
  name : Str
  rdata : Nat
deriving DecidableEq

/-- A DNS message as seen by the core: question section, answer section, and
an opaque `meta` for all content the core never reads or writes. -/
structure Msg where
  question : List Question
  answer : List RR
  meta : Nat
deriving DecidableEq

/-- `dns.TypeAXFR`. -/
def typeAXFR : Nat := 252

/-- `dns.TypeIXFR`. -/
def typeIXFR : Nat := 251

/-- The startup configuration: `-default`, the `-route` table, the `-remap`
table and the `-allow-transfer` list.  The route and remap tables are kept as
the sequence of entries in the order a Go `range` over the map visits them;
that order is an input of the model because Go leaves it undefined. -/
structure Config where
  defaultServer : Str
  routes : List (Str × Str)
  remaps : List (Str × Str)
  transferIPs : List Str

/-- `begins pat s` holds when `pat` occurs at the very start of `s`
(the prefix test used by the leftmost-occurrence search of
`strings.Replace`). -/
def begins : Str → Str → Bool
  | [], _ => true
  | _ :: _, [] => false
  | c :: cs, b :: bs => c == b && begins cs bs

/-- `occursIn pat s` holds when `pat` occurs somewhere inside `s` as a
contiguous substring. -/
def occursIn (pat : Str) : Str → Bool
  | [] => pat == []
  | c :: rest => begins pat (c :: rest) || occursIn pat rest

/-- Replace the leftmost occurrence of `old` (assumed nonempty) in the
scanned string by `new`; identity when `old` does not occur. -/
def scanReplace (old new : Str) : Str → Str
  | [] => []
  | c :: rest =>
    if begins old (c :: rest) then new ++ List.drop old.length (c :: rest)
    else c :: scanReplace old new rest

/-- Model of Go `strings.Replace(s, old, new, 1)`: replace the first
(leftmost) occurrence of `old` in `s` by `new`; with empty `old` it inserts
`new` at the start; when `old` does not occur, `s` is returned unchanged. -/
def replace1 (s old new : Str) : Str :=
  if old = [] then new ++ s else scanReplace old new s

/-- Model of `isTransfer`: some question has type IXFR or AXFR. -/
def isTransfer (req : Msg) : Bool :=
  req.question.any (fun q => q.qtype == typeIXFR || q.qtype == typeAXFR)

/-- Model of `allowed`: a non-transfer query is always allowed; a transfer
query is allowed iff the client's host address is literally one of the
configured transfer IPs. -/
def allowed (transferIPs : List Str) (remote : Str) (req : Msg) : Bool :=
  if !isTransfer req then true
  else transferIPs.contains remote

/-- Model of the remap loop of `route`: find the first remap entry (in
iteration order) whose source is a suffix of `name`; substitute it into
`name` with `strings.Replace(name, src, dst, 1)` and record the matched
pair; when none matches, return the name unchanged and the empty pair. -/
def applyRemap (remaps : List (Str × Str)) (name : Str) : Str × Str × Str :=
  match remaps.find? (fun p => List.isSuffixOf p.1 name) with
  | some (s, d) => (replace1 name s d, s, d)
  | none => (name, [], [])

/-- Model of the route loop of `route`: the upstream of the first route
entry (in iteration order) whose suffix is a suffix of `name`. -/
def findRoute (routes : List (Str × Str)) (name : Str) : Option Str :=
  (routes.find? (fun p => List.isSuffixOf p.1 name)).map (fun p => p.2)

/-- The part of `route` that runs before `proxy` is called: the malformed
query / authorization guard, the remap substitution and the route-table
scan.  Returns `none` when the handler fails the request without selecting
an upstream, and otherwise the chosen upstream address, the (possibly
remapped) request passed on to `proxy`, and the matched remap pair. -/
def routeDecision (cfg : Config) (remote : Str) (req : Msg) :
    Option (Str × Msg × Str × Str) :=
  match req.question with
  | [] => none
  | q :: qs =>
    if allowed cfg.transferIPs remote req then
      let a := applyRemap cfg.remaps q.name
      some ((findRoute cfg.routes a.1).getD cfg.defaultServer,
            { req with question := { q with name := a.1 } :: qs },
            a.2.1, a.2.2)
    else none

/-- Client transport, from the runtime type of `w.RemoteAddr()`. -/
inductive Transport where
  | tcp
  | udp
deriving DecidableEq

/-- The error component of `dns.Client.Exchange`: absent, the distinguished
`dns.ErrTruncated`, or any other error. -/
inductive ExchErr where
  | truncated
  | other
deriving DecidableEq

/-- Oracle describing what `c.Exchange(req, addr)` returned: the reply
message (absent models a nil `*dns.Msg`) and the error component. -/
structure ExchangeRes where
  resp : Option Msg
  err : Option ExchErr
deriving DecidableEq

/-- Oracle describing the zone-transfer session: `t.In` failed, `t.Out`
failed after receiving the records, or the whole stream succeeded with the
given records. -/
inductive TransferRes where
  | inErr
  | outErr (recs : List RR)
  | ok (recs : List RR)
deriving DecidableEq

/-- The observable outcome of handling one query: `dns.HandleFailed(w, m)`
with the message `m` it echoes, `w.WriteMsg(resp)`, a successfully relayed
zone-transfer stream (upstream contacted, request sent, records streamed to
the client), or a Go runtime panic. -/
inductive Outcome where
  | failed (req : Msg)
  | wrote (resp : Msg)
  | transferred (upstream : Str) (req : Msg) (recs : List RR)
  | panicked
deriving DecidableEq

/-- The response rewrite performed when a remap was applied (`src != ""`):
`strings.Replace` of `dst` by `src`, once, in the first question's name and
in every answer record's owner name.  Returns `none` when the Go code would
panic: `resp.Question[0]` on an empty question section. -/
def undoRemap (src dst : Str) (resp : Msg) : Option Msg :=
  match resp.question with
  | [] => none
  | q :: qs =>
    some { resp with
           question := { q with name := replace1 q.name dst src } :: qs,
           answer := resp.answer.map
             (fun a => { a with name := replace1 a.name dst src }) }

/-- Model of `proxy`: the transfer path (tcp-only, records streamed through
unchanged), and the ordinary path (exchange, truncation treated as success,
remap undo, single write).  An absent exchange reply reaching the rewrite
or `WriteMsg` is the nil-dereference panic of the Go code. -/
def proxy (addr : Str) (transport : Transport) (req : Msg) (src dst : Str)
    (ex : ExchangeRes) (tr : TransferRes) : Outcome :=
  if isTransfer req then
    if transport ≠ Transport.tcp then Outcome.failed req
    else
      match tr with
      | TransferRes.inErr => Outcome.failed req
      | TransferRes.outErr _ => Outcome.failed req
      | TransferRes.ok recs => Outcome.transferred addr req recs
  else
    match ex.err with
    | some ExchErr.other => Outcome.failed req
    | _ =>
      match ex.resp with
      | none => Outcome.panicked
      | some resp =>
        if src = [] then Outcome.wrote resp
        else
          match undoRemap src dst resp with
          | none => Outcome.panicked
          | some resp2 => Outcome.wrote resp2

/-- Model of the handler `route`: guard and dispatch, then `proxy` on the
selected upstream with the (possibly remapped) request. -/
def route (cfg : Config) (remote : Str) (transport : Transport) (req : Msg)
    (ex : ExchangeRes) (tr : TransferRes) : Outcome :=
  match routeDecision cfg remote req with
  | none => Outcome.failed req
  | some (addr, req2, src, dst) => proxy addr transport req2 src dst ex tr

/-- Substitution of the suffix occurrence, as the specification words it:
replace the final `src.length` characters of `name` by `dst`.  Used only to
compare the specification's description with what the code does. -/
def suffixSubst (name src dst : Str) : Str :=
  List.take (name.length - src.length) name ++ dst

/-- `t2` is `t` with exactly one occurrence of `old` — its leftmost one —
replaced by `new`. -/
def ReplOnceLeftmost (old new t t2 : Str) : Prop :=
  ∃ pre post, t = pre ++ old ++ post ∧ t2 = pre ++ new ++ post ∧
    ∀ pre2 post2, t = pre2 ++ old ++ post2 → pre.length ≤ pre2.length

/-- Either `old` does not occur in `t` and `t2 = t`, or `t2` is `t` with the
leftmost occurrence of `old` replaced by `new`. -/
def ReplOnceOrAbsent (old new t t2 : Str) : Prop :=
  (occursIn old t = false ∧ t2 = t) ∨ ReplOnceLeftmost old new t t2

/-! ### Properties of the string operations -/

theorem begins_iff {p s : Str} : begins p s = true ↔ ∃ t, s = p ++ t := by
  induction p generalizing s with
  | nil => simp [begins]
  | cons c cs ih =>
    cases s with
    | nil => simp [begins]
    | cons b bs =>
      simp only [begins, Bool.and_eq_true, beq_iff_eq, ih, List.cons_append]
      constructor
      · rintro ⟨rfl, t, rfl⟩
        exact ⟨t, rfl⟩
      · rintro ⟨t, h⟩
        cases h
        exact ⟨rfl, t, rfl⟩

theorem occursIn_iff {pat s : Str} :
    occursIn pat s = true ↔ ∃ pre post, s = pre ++ pat ++ post := by
  induction s with
  | nil =>
    simp only [occursIn, beq_iff_eq]
    constructor
    · rintro rfl
      exact ⟨[], [], rfl⟩
    · rintro ⟨pre, post, h⟩
      rcases List.append_eq_nil.mp h.symm with ⟨h1, h2⟩
      rcases List.append_eq_nil.mp h1 with ⟨-, h3⟩
      exact h3
  | cons c rest ih =>
    simp only [occursIn, Bool.or_eq_true, begins_iff, ih]
    constructor
    · rintro (⟨t, ht⟩ | ⟨pre, post, hp⟩)
      · exact ⟨[], t, by simpa using ht⟩
      · exact ⟨c :: pre, post, by simp [hp]⟩
    · rintro ⟨pre, post, hp⟩
      cases pre with
      | nil => exact Or.inl ⟨post, by simpa using hp⟩
      | cons x xs =>
        rw [List.cons_append, List.cons_append] at hp
        injection hp with h1 h2
        exact Or.inr ⟨xs, post, h2⟩

theorem scanReplace_not_occurs {old new : Str} :
    ∀ s, occursIn old s = false → scanReplace old new s = s := by
  intro s
  induction s with
  | nil => intro _; rfl
  | cons c rest ih =>
    intro h
    simp only [occursIn, Bool.or_eq_false_iff] at h
    have hb : ¬ (begins old (c :: rest) = true) := by simp [h.1]
    simp only [scanReplace, if_neg hb, ih h.2]

theorem scanReplace_leftmost {old new : Str} (hold : old ≠ []) :
    ∀ s, occursIn old s = true →
      ∃ pre post, s = pre ++ old ++ post ∧
        scanReplace old new s = pre ++ new ++ post ∧
        ∀ pre2 post2, s = pre2 ++ old ++ post2 → pre.length ≤ pre2.length := by
  intro s
  induction s with
  | nil =>
    intro h
    simp only [occursIn, beq_iff_eq] at h
    exact absurd h hold
  | cons c rest ih =>
    intro h
    by_cases hb : begins old (c :: rest) = true
    · rcases begins_iff.mp hb with ⟨t, ht⟩
      refine ⟨[], t, by simpa using ht, ?_, ?_⟩
      · simp only [scanReplace, if_pos hb, List.nil_append]
        rw [ht, List.drop_left]
      · intro pre2 post2 _
        simp
    · simp only [occursIn, Bool.or_eq_true] at h
      rcases h with h | h
      · exact absurd h hb
      · rcases ih h with ⟨pre, post, hs, hr, hmin⟩
        refine ⟨c :: pre, post, by simp [hs], ?_, ?_⟩
        · simp only [scanReplace, if_neg hb, hr]
          simp
        · intro pre2 post2 h2
          cases pre2 with
          | nil =>
            exact absurd (begins_iff.mpr ⟨post2, by simpa using h2⟩) hb
          | cons x xs =>
            rw [List.cons_append, List.cons_append] at h2
            injection h2 with h3 h4
            simpa using Nat.succ_le_succ (hmin xs post2 h4)

theorem replace1_spec {old new t : Str} (hold : old ≠ []) :
    ReplOnceOrAbsent old new t (replace1 t old new) := by
  unfold replace1
  rw [if_neg hold]
  by_cases h : occursIn old t = true
  · exact Or.inr (scanReplace_leftmost hold t h)
  · have h' : occursIn old t = false := by
      cases hx : occursIn old t
      · rfl
      · exact absurd hx h
    exact Or.inl ⟨h', scanReplace_not_occurs t h'⟩

theorem replace1_leftmost {old new t : Str} (hold : old ≠ [])
    (hocc : occursIn old t = true) :
    ReplOnceLeftmost old new t (replace1 t old new) := by
  unfold replace1
  rw [if_neg hold]
  exact scanReplace_leftmost hold t hocc

theorem occursIn_of_isSuffixOf {pat s : Str} (h : List.isSuffixOf pat s = true) :
    occursIn pat s = true := by
  rcases List.isSuffixOf_iff_suffix.mp h with ⟨t, ht⟩
  exact occursIn_iff.mpr ⟨t, [], by simp [ht.symm]⟩

theorem find_of_unique {α : Type} (p : α → Bool) (l : List α) (a : α)
    (ha : a ∈ l) (hpa : p a = true)
    (huniq : ∀ x ∈ l, p x = true → x = a) : l.find? p = some a := by
  induction l with
  | nil => cases ha
  | cons x xs ih =>
    by_cases hx : p x = true
    · have hxa := huniq x (List.mem_cons_self x xs) hx
      subst hxa
      exact List.find?_cons_of_pos xs hx
    · have hax : a ∈ xs := by
        rcases List.mem_cons.mp ha with rfl | h
        · exact absurd hpa hx
        · exact h
      rw [List.find?_cons_of_neg xs hx]
      exact ih hax (fun y hy hpy => huniq y (List.mem_cons_of_mem x hy) hpy)

/-! ### Structural lemmas about the handler -/

theorem isTransfer_set_name (req : Msg) (q : Question) (qs : List Question)
    (n : Str) (hq : req.question = q :: qs) :
    isTransfer { req with question := { q with name := n } :: qs } = isTransfer req := by
  simp [isTransfer, hq]

theorem allowed_of_not_transfer (ips : List Str) (ip : Str) (req : Msg)
    (h : isTransfer req = false) : allowed ips ip req = true := by
  simp [allowed, h]

theorem route_proxy (cfg : Config) (ip : Str) (tp : Transport) (req : Msg)
    (ex : ExchangeRes) (tr : TransferRes) (q : Question) (qs : List Question)
    (hq : req.question = q :: qs)
    (hall : allowed cfg.transferIPs ip req = true) :
    route cfg ip tp req ex tr =
      proxy ((findRoute cfg.routes (applyRemap cfg.remaps q.name).1).getD cfg.defaultServer)
        tp { req with question := { q with name := (applyRemap cfg.remaps q.name).1 } :: qs }
        (applyRemap cfg.remaps q.name).2.1 (applyRemap cfg.remaps q.name).2.2 ex tr := by
  simp [route, routeDecision, hq, hall]

theorem proxy_ordinary_id (addr : Str) (tp : Transport) (req : Msg)
    (src dst : Str) (ex : ExchangeRes) (tr : TransferRes) (r : Msg)
    (hnt : isTransfer req = false)
    (herr : ex.err ≠ some ExchErr.other)
    (hresp : ex.resp = some r)
    (hsrc : src = []) :
    proxy addr tp req src dst ex tr = Outcome.wrote r := by
  cases hE : ex.err with
  | none => simp [proxy, hnt, hresp, hE, hsrc]
  | some e =>
    cases e with
    | truncated => simp [proxy, hnt, hresp, hE, hsrc]
    | other => exact absurd hE herr

theorem proxy_ordinary_rw (addr : Str) (tp : Transport) (req : Msg)
    (src dst : Str) (ex : ExchangeRes) (tr : TransferRes) (r : Msg)
    (rq : Question) (rqs : List Question)
    (hnt : isTransfer req = false)
    (herr : ex.err ≠ some ExchErr.other)
    (hresp : ex.resp = some r)
    (hsrc : src ≠ [])
    (hrq : r.question = rq :: rqs) :
    proxy addr tp req src dst ex tr =
      Outcome.wrote { r with
        question := { rq with name := replace1 rq.name dst src } :: rqs,
        answer := r.answer.map (fun a => { a with name := replace1 a.name dst src }) } := by
  cases hE : ex.err with
  | none => simp [proxy, hnt, hresp, hE, hsrc, undoRemap, hrq]
  | some e =>
    cases e with
    | truncated => simp [proxy, hnt, hresp, hE, hsrc, undoRemap, hrq]
    | other => exact absurd hE herr

theorem forall2_map_self {α β : Type} (P : α → β → Prop) (f : α → β)
    (l : List α) (h : ∀ x ∈ l, P x (f x)) : List.Forall₂ P l (l.map f) := by
  induction l with
  | nil => exact List.Forall₂.nil
  | cons x xs ih =>
    exact List.Forall₂.cons (h x (by simp))
      (ih (fun y hy => h y (by simp [hy])))

/-! ### The claims -/

/-- Claim C6: a zone-transfer query whose client address is not in the
transfer allow-list is never forwarded to any upstream — the handler makes
no routing decision for it — and the client receives a failure response;
a non-transfer query is authorized unconditionally. -/
theorem C6_transfer_guard (cfg : Config) (ip : Str) (tp : Transport)
    (req : Msg) (ex : ExchangeRes) (tr : TransferRes) :
    (isTransfer req = true → cfg.transferIPs.contains ip = false →
      routeDecision cfg ip req = none ∧
      route cfg ip tp req ex tr = Outcome.failed req)
    ∧ (isTransfer req = false → allowed cfg.transferIPs ip req = true) := by
  constructor
  · intro ht hip
    have hall : allowed cfg.transferIPs ip req = false := by
      unfold allowed
      rw [ht]
      simpa using hip
    have hrd : routeDecision cfg ip req = none := by
      cases hq : req.question with
      | nil => simp [routeDecision, hq]
      | cons q qs => simp [routeDecision, hq, hall]
    exact ⟨hrd, by simp [route, hrd]⟩
  · intro ht
    exact allowed_of_not_transfer cfg.transferIPs ip req ht

/-- Claim C6 witness: an AXFR query from client 5.6.7.8 with allow-list
{1.2.3.4} selects no upstream and yields the failure response. -/
theorem C6_transfer_guard_witness :
    routeDecision ⟨strL "8.8.8.8:53", [], [], [strL "1.2.3.4"]⟩ (strL "5.6.7.8")
        ⟨[⟨strL "z.example.", 252⟩], [], 0⟩ = none
    ∧ route ⟨strL "8.8.8.8:53", [], [], [strL "1.2.3.4"]⟩ (strL "5.6.7.8")
        Transport.tcp ⟨[⟨strL "z.example.", 252⟩], [], 0⟩ ⟨none, none⟩
        TransferRes.inErr
      = Outcome.failed ⟨[⟨strL "z.example.", 252⟩], [], 0⟩ :=
  (C6_transfer_guard _ _ _ _ _ _).1 (by decide) (by decide)

/-- Claim C7: a zone-transfer query arriving over datagram (UDP) transport
always ends in a failure response — whatever the allow-list, the remap and
route tables, and the oracles say — and the transfer is never served. -/
theorem C7_udp_transfer_rejected (cfg : Config) (ip : Str) (req : Msg)
    (ex : ExchangeRes) (tr : TransferRes) (ht : isTransfer req = true) :
    ∃ r, route cfg ip Transport.udp req ex tr = Outcome.failed r := by
  cases hq : req.question with
  | nil => exact ⟨req, by simp [route, routeDecision, hq]⟩
  | cons q qs =>
    cases hall : allowed cfg.transferIPs ip req with
    | false => exact ⟨req, by simp [route, routeDecision, hq, hall]⟩
    | true =>
      refine ⟨{ req with
          question := { q with name := (applyRemap cfg.remaps q.name).1 } :: qs }, ?_⟩
      have ht2 : isTransfer { req with
          question := { q with name := (applyRemap cfg.remaps q.name).1 } :: qs } = true := by
        rw [isTransfer_set_name req q qs _ hq]
        exact ht
      rw [route_proxy cfg ip Transport.udp req ex tr q qs hq hall]
      simp [proxy, ht2]

/-- Claim C7 witness: an AXFR query over UDP from an allow-listed client is
still answered with a failure response. -/
theorem C7_udp_transfer_rejected_witness :
    ∃ r, route ⟨strL "8.8.8.8:53", [], [], [strL "1.2.3.4"]⟩ (strL "1.2.3.4")
        Transport.udp ⟨[⟨strL "z.example.", 252⟩], [], 0⟩ ⟨none, none⟩
        (TransferRes.ok []) = Outcome.failed r :=
  C7_udp_transfer_rejected _ _ _ _ _ (by decide)

/-- Claim C8: a query with an empty question section is failed outright:
no routing decision is made (hence no remap, no route selection, no
forwarding) and the client receives the failure response. -/
theorem C8_empty_question (cfg : Config) (ip : Str) (tp : Transport)
    (req : Msg) (ex : ExchangeRes) (tr : TransferRes)
    (hq : req.question = []) :
    routeDecision cfg ip req = none ∧
    route cfg ip tp req ex tr = Outcome.failed req := by
  have hrd : routeDecision cfg ip req = none := by simp [routeDecision, hq]
  exact ⟨hrd, by simp [route, hrd]⟩

/-- Claim C8 witness: the empty-question query is dropped with a failure
response. -/
theorem C8_empty_question_witness :
    routeDecision ⟨strL "8.8.8.8:53", [], [], []⟩ (strL "7.7.7.7")
        ⟨[], [], 0⟩ = none
    ∧ route ⟨strL "8.8.8.8:53", [], [], []⟩ (strL "7.7.7.7") Transport.udp
        ⟨[], [], 0⟩ ⟨none, none⟩ TransferRes.inErr
      = Outcome.failed ⟨[], [], 0⟩ :=
  C8_empty_question _ _ _ _ _ _ rfl

/-- Claim C9: when the (possibly remapped) first-question name ends with no
configured route suffix, the chosen upstream is the default server. -/
theorem C9_default_upstream (cfg : Config) (ip : Str) (req : Msg)
    (q : Question) (qs : List Question)
    (hq : req.question = q :: qs)
    (hall : allowed cfg.transferIPs ip req = true)
    (hnone : ∀ p ∈ cfg.routes,
      List.isSuffixOf p.1 ((applyRemap cfg.remaps q.name).1) = false) :
    (routeDecision cfg ip req).map (fun t => t.1) = some cfg.defaultServer := by
  have hfind : cfg.routes.find?
      (fun p => List.isSuffixOf p.1 ((applyRemap cfg.remaps q.name).1)) = none :=
    List.find?_eq_none.mpr (fun x hx => by simp [hnone x hx])
  simp [routeDecision, hq, hall, findRoute, hfind]

/-- Claim C9 witness: "other.net." matches no route suffix and goes to the
default upstream. -/
theorem C9_default_upstream_witness :
    (routeDecision ⟨strL "8.8.8.8:53", [(strL "example.com.", strL "8.8.4.4:53")], [], []⟩
        (strL "7.7.7.7") ⟨[⟨strL "other.net.", 1⟩], [], 0⟩).map (fun t => t.1)
      = some (strL "8.8.8.8:53") :=
  C9_default_upstream _ _ _ _ _ rfl (by decide) (by decide)

/-- Claim C10: an authorized zone-transfer query over stream transport is
relayed with the streamed records unchanged; the upstream transfer is
requested under the (possibly remapped) first-question name, and no
symmetric rewrite is applied to the streamed records. -/
theorem C10_transfer_stream_unchanged (cfg : Config) (ip : Str) (req : Msg)
    (ex : ExchangeRes) (recs : List RR) (q : Question) (qs : List Question)
    (ht : isTransfer req = true)
    (hall : allowed cfg.transferIPs ip req = true)
    (hq : req.question = q :: qs) :
    ∃ addr, route cfg ip Transport.tcp req ex (TransferRes.ok recs) =
      Outcome.transferred addr
        { req with question := { q with name := (applyRemap cfg.remaps q.name).1 } :: qs }
        recs := by
  have ht2 : isTransfer { req with
      question := { q with name := (applyRemap cfg.remaps q.name).1 } :: qs } = true := by
    rw [isTransfer_set_name req q qs _ hq]
    exact ht
  refine ⟨(findRoute cfg.routes (applyRemap cfg.remaps q.name).1).getD cfg.defaultServer, ?_⟩
  rw [route_proxy cfg ip Transport.tcp req ex (TransferRes.ok recs) q qs hq hall]
  simp [proxy, ht2]

/-- Claim C10 witness: an allow-listed AXFR for "a.old.com." with remap
old.com. to new.com. is requested upstream as "a.new.com." and the streamed
records — whose names mention the remapped domain — reach the client
unchanged, with no dst-to-src rewrite. -/
theorem C10_transfer_stream_unchanged_witness :
    ∃ addr, route
        ⟨strL "8.8.8.8:53", [], [(strL "old.com.", strL "new.com.")], [strL "1.2.3.4"]⟩
        (strL "1.2.3.4") Transport.tcp
        ⟨[⟨strL "a.old.com.", 252⟩], [], 0⟩ ⟨none, none⟩
        (TransferRes.ok [⟨strL "a.new.com.", 1⟩, ⟨strL "b.a.new.com.", 2⟩])
      = Outcome.transferred addr ⟨[⟨strL "a.new.com.", 252⟩], [], 0⟩
          [⟨strL "a.new.com.", 1⟩, ⟨strL "b.a.new.com.", 2⟩] :=
  C10_transfer_stream_unchanged
    ⟨strL "8.8.8.8:53", [], [(strL "old.com.", strL "new.com.")], [strL "1.2.3.4"]⟩
    (strL "1.2.3.4") ⟨[⟨strL "a.old.com.", 252⟩], [], 0⟩ ⟨none, none⟩
    [⟨strL "a.new.com.", 1⟩, ⟨strL "b.a.new.com.", 2⟩]
    ⟨strL "a.old.com.", 252⟩ [] (by decide) (by decide) rfl

/-- Claim C1 counterexample: with overlapping route suffixes the claim fails.
Routes iterate as (b.com. to 1.1.1.1:53) then (a.b.com. to 2.2.2.2:53); the
query name x.a.b.com. ends with the configured suffix a.b.com., whose
upstream is 2.2.2.2:53, yet the handler forwards to 1.1.1.1:53 — the first
matching entry in iteration order — so the query is not forwarded to the
upstream mapped by the matching suffix. -/
theorem C1_counterexample :
    ((strL "a.b.com.", strL "2.2.2.2:53") ∈
      [(strL "b.com.", strL "1.1.1.1:53"), (strL "a.b.com.", strL "2.2.2.2:53")])
    ∧ List.isSuffixOf (strL "a.b.com.") ((applyRemap [] (strL "x.a.b.com.")).1) = true
    ∧ (routeDecision
        ⟨strL "9.9.9.9:53",
         [(strL "b.com.", strL "1.1.1.1:53"), (strL "a.b.com.", strL "2.2.2.2:53")],
         [], []⟩
        (strL "7.7.7.7") ⟨[⟨strL "x.a.b.com.", 1⟩], [], 0⟩).map (fun t => t.1)
      = some (strL "1.1.1.1:53")
    ∧ strL "1.1.1.1:53" ≠ strL "2.2.2.2:53" := by decide

/-- Claim C1 amended: for a query with at least one question that passes
transfer authorization, if route suffix S maps to upstream U, the (possibly
remapped) first-question name ends with S, and no other route entry matches
that name, then the chosen upstream is U — in particular not the default
one.  (When several route suffixes match, the code forwards to whichever
matching entry map iteration visits first.) -/
theorem C1_amended (cfg : Config) (ip : Str) (req : Msg) (q : Question)
    (qs : List Question) (S U : Str)
    (hq : req.question = q :: qs)
    (hall : allowed cfg.transferIPs ip req = true)
    (hmem : (S, U) ∈ cfg.routes)
    (hsuf : List.isSuffixOf S ((applyRemap cfg.remaps q.name).1) = true)
    (huniq : ∀ p ∈ cfg.routes,
      List.isSuffixOf p.1 ((applyRemap cfg.remaps q.name).1) = true → p = (S, U)) :
    (routeDecision cfg ip req).map (fun t => t.1) = some U := by
  have hfind : cfg.routes.find?
      (fun p => List.isSuffixOf p.1 ((applyRemap cfg.remaps q.name).1)) = some (S, U) :=
    find_of_unique _ _ _ hmem hsuf huniq
  simp [routeDecision, hq, hall, findRoute, hfind]

/-- Claim C1 amended, witness: with the single route example.com. to
8.8.4.4:53, the query foo.example.com. is forwarded to 8.8.4.4:53. -/
theorem C1_amended_witness :
    (routeDecision
        ⟨strL "8.8.8.8:53", [(strL "example.com.", strL "8.8.4.4:53")], [], []⟩
        (strL "7.7.7.7") ⟨[⟨strL "foo.example.com.", 1⟩], [], 0⟩).map (fun t => t.1)
      = some (strL "8.8.4.4:53") :=
  C1_amended
    ⟨strL "8.8.8.8:53", [(strL "example.com.", strL "8.8.4.4:53")], [], []⟩
    (strL "7.7.7.7") ⟨[⟨strL "foo.example.com.", 1⟩], [], 0⟩
    ⟨strL "foo.example.com.", 1⟩ [] (strL "example.com.") (strL "8.8.4.4:53")
    rfl (by decide) (by decide) (by decide) (by decide)

/-- Claim C2 counterexample: with remap old.com. to new.com. and name
old.com.a.old.com., the matched source is a suffix of the name, but the
substitution rewrites the earlier, non-suffix occurrence at the start of the
name (giving new.com.a.old.com.), not the suffix occurrence (which would
give old.com.a.new.com.). -/
theorem C2_counterexample :
    List.isSuffixOf (strL "old.com.") (strL "old.com.a.old.com.") = true
    ∧ (applyRemap [(strL "old.com.", strL "new.com.")] (strL "old.com.a.old.com.")).2
      = (strL "old.com.", strL "new.com.")
    ∧ (applyRemap [(strL "old.com.", strL "new.com.")] (strL "old.com.a.old.com.")).1
      = strL "new.com.a.old.com."
    ∧ suffixSubst (strL "old.com.a.old.com.") (strL "old.com.") (strL "new.com.")
      = strL "old.com.a.new.com."
    ∧ (applyRemap [(strL "old.com.", strL "new.com.")] (strL "old.com.a.old.com.")).1
      ≠ suffixSubst (strL "old.com.a.old.com.") (strL "old.com.") (strL "new.com.") := by
  decide

/-- Claim C2 amended: when the first matching remap entry (in iteration
order) is (src, dst) with nonempty src, that entry — and only that entry —
is applied, and the substitution replaces the first (leftmost) occurrence of
src within the name by dst, which need not be the suffix occurrence. -/
theorem C2_amended (remaps : List (Str × Str)) (name s d : Str)
    (hs : s ≠ [])
    (hfind : remaps.find? (fun p => List.isSuffixOf p.1 name) = some (s, d)) :
    (applyRemap remaps name).2 = (s, d)
    ∧ ReplOnceLeftmost s d name ((applyRemap remaps name).1) := by
  have hsuf : List.isSuffixOf s name = true := by
    have h := List.find?_some hfind
    simpa using h
  have hocc : occursIn s name = true := occursIn_of_isSuffixOf hsuf
  unfold applyRemap
  rw [hfind]
  exact ⟨rfl, replace1_leftmost hs hocc⟩

/-- Claim C2 amended, witness: remap old.com. to new.com. applied to
a.old.com. replaces the (unique, leftmost) occurrence of the source. -/
theorem C2_amended_witness :
    (applyRemap [(strL "old.com.", strL "new.com.")] (strL "a.old.com.")).2
      = (strL "old.com.", strL "new.com.")
    ∧ ReplOnceLeftmost (strL "old.com.") (strL "new.com.") (strL "a.old.com.")
        ((applyRemap [(strL "old.com.", strL "new.com.")] (strL "a.old.com.")).1) :=
  C2_amended [(strL "old.com.", strL "new.com.")] (strL "a.old.com.")
    (strL "old.com.") (strL "new.com.") (by decide) (by decide)

/-- Claim C4 counterexample: an ordinary query a.old.com. with remap
old.com. to new.com. whose exchange reports truncation is answered with the
remap-undo rewrite applied: the client receives question name a.old.com.
while the upstream's truncated response carried a.new.com. — the truncated
response is relayed as a success but not unmodified. -/
theorem C4_counterexample :
    route ⟨strL "8.8.8.8:53", [], [(strL "old.com.", strL "new.com.")], []⟩
        (strL "7.7.7.7") Transport.udp
        ⟨[⟨strL "a.old.com.", 1⟩], [], 0⟩
        ⟨some ⟨[⟨strL "a.new.com.", 1⟩], [], 5⟩, some ExchErr.truncated⟩
        TransferRes.inErr
      = Outcome.wrote ⟨[⟨strL "a.old.com.", 1⟩], [], 5⟩
    ∧ (⟨[⟨strL "a.old.com.", 1⟩], [], 5⟩ : Msg) ≠ ⟨[⟨strL "a.new.com.", 1⟩], [], 5⟩ := by
  decide

/-- Claim C4 amended: for every ordinary (non-transfer) query whose upstream
exchange reports truncation and yields a response, the outcome is success:
the response is written to the client and never converted into a failure
response; its flags and non-name content (here `meta`) and its section
lengths are preserved, and it is relayed entirely unmodified whenever no
remap was applied (when a remap was applied, the response still undergoes
the standard remap-undo name rewrite before reaching the client). -/
theorem C4_amended (cfg : Config) (ip : Str) (tp : Transport) (req : Msg)
    (ex : ExchangeRes) (tr : TransferRes) (q : Question) (qs : List Question)
    (r : Msg)
    (hq : req.question = q :: qs)
    (hnt : isTransfer req = false)
    (herr : ex.err = some ExchErr.truncated)
    (hresp : ex.resp = some r)
    (hrquest : (applyRemap cfg.remaps q.name).2.1 ≠ [] → r.question ≠ []) :
    ∃ r2, route cfg ip tp req ex tr = Outcome.wrote r2
      ∧ r2.meta = r.meta
      ∧ r2.question.length = r.question.length
      ∧ r2.answer.length = r.answer.length
      ∧ ((applyRemap cfg.remaps q.name).2.1 = [] → r2 = r) := by
  have hall : allowed cfg.transferIPs ip req = true :=
    allowed_of_not_transfer cfg.transferIPs ip req hnt
  have hnt2 : isTransfer { req with
      question := { q with name := (applyRemap cfg.remaps q.name).1 } :: qs } = false := by
    rw [isTransfer_set_name req q qs _ hq]
    exact hnt
  have herr2 : ex.err ≠ some ExchErr.other := by simp [herr]
  rw [route_proxy cfg ip tp req ex tr q qs hq hall]
  by_cases hsrc : (applyRemap cfg.remaps q.name).2.1 = []
  · refine ⟨r, ?_, rfl, rfl, rfl, fun _ => rfl⟩
    exact proxy_ordinary_id _ _ _ _ _ _ _ _ hnt2 herr2 hresp hsrc
  · obtain ⟨rq, rqs, hrq⟩ : ∃ rq rqs, r.question = rq :: rqs := by
      cases hx : r.question with
      | nil => exact absurd hx (hrquest hsrc)
      | cons a b => exact ⟨a, b, rfl⟩
    refine ⟨_, proxy_ordinary_rw _ _ _ _ _ _ _ _ _ _ hnt2 herr2 hresp hsrc hrq,
      rfl, ?_, ?_, fun h => absurd h hsrc⟩
    · simp [hrq]
    · simp

/-- Claim C4 amended, witness: with no remap configured, a truncated
response is relayed to the client bit-for-bit unchanged. -/
theorem C4_amended_witness :
    ∃ r2, route ⟨strL "8.8.8.8:53", [], [], []⟩ (strL "7.7.7.7") Transport.udp
        ⟨[⟨strL "foo.example.", 1⟩], [], 0⟩
        ⟨some ⟨[⟨strL "foo.example.", 1⟩], [⟨strL "foo.example.", 9⟩], 7⟩,
         some ExchErr.truncated⟩
        TransferRes.inErr
      = Outcome.wrote r2
      ∧ r2.meta = (⟨[⟨strL "foo.example.", 1⟩], [⟨strL "foo.example.", 9⟩], 7⟩ : Msg).meta
      ∧ r2.question.length
          = (⟨[⟨strL "foo.example.", 1⟩], [⟨strL "foo.example.", 9⟩], 7⟩ : Msg).question.length
      ∧ r2.answer.length
          = (⟨[⟨strL "foo.example.", 1⟩], [⟨strL "foo.example.", 9⟩], 7⟩ : Msg).answer.length
      ∧ ((applyRemap [] (strL "foo.example.")).2.1 = []
          → r2 = ⟨[⟨strL "foo.example.", 1⟩], [⟨strL "foo.example.", 9⟩], 7⟩) :=
  C4_amended ⟨strL "8.8.8.8:53", [], [], []⟩ (strL "7.7.7.7") Transport.udp
    ⟨[⟨strL "foo.example.", 1⟩], [], 0⟩
    ⟨some ⟨[⟨strL "foo.example.", 1⟩], [⟨strL "foo.example.", 9⟩], 7⟩,
     some ExchErr.truncated⟩
    TransferRes.inErr ⟨strL "foo.example.", 1⟩ []
    ⟨[⟨strL "foo.example.", 1⟩], [⟨strL "foo.example.", 9⟩], 7⟩
    rfl (by decide) rfl rfl (by decide)

/-- Claim C3 counterexample: remap old.com. to new.com. applied to query
a.old.com.; the upstream's successful response carries question name
weird.example. and one answer record owned by other.net., in neither of
which the destination suffix new.com. occurs.  The handler delivers both
names unchanged: neither the response's first question name nor the answer
owner name has dst replaced by src (let alone exactly once), and the remap
is not undone. -/
theorem C3_counterexample :
    (routeDecision ⟨strL "8.8.8.8:53", [], [(strL "old.com.", strL "new.com.")], []⟩
        (strL "7.7.7.7") ⟨[⟨strL "a.old.com.", 1⟩], [], 0⟩).map (fun t => t.2.2)
      = some (strL "old.com.", strL "new.com.")
    ∧ route ⟨strL "8.8.8.8:53", [], [(strL "old.com.", strL "new.com.")], []⟩
        (strL "7.7.7.7") Transport.udp
        ⟨[⟨strL "a.old.com.", 1⟩], [], 0⟩
        ⟨some ⟨[⟨strL "weird.example.", 1⟩], [⟨strL "other.net.", 7⟩], 0⟩, none⟩
        TransferRes.inErr
      = Outcome.wrote ⟨[⟨strL "weird.example.", 1⟩], [⟨strL "other.net.", 7⟩], 0⟩
    ∧ occursIn (strL "new.com.") (strL "weird.example.") = false
    ∧ occursIn (strL "new.com.") (strL "other.net.") = false
    ∧ occursIn (strL "old.com.") (strL "other.net.") = false := by
  decide

/-- Claim C3 amended: when remap (src, dst) is applied to an ordinary query,
the forwarded query's first question name has the leftmost occurrence of src
replaced by dst exactly once; on a successful exchange the delivered
response's first question name and each answer owner name are rewritten by
replacing their leftmost occurrence of dst with src when dst occurs in them
and are left unchanged otherwise (answer payloads untouched) — the rewrite
is the leftmost-occurrence substitution applied in the reverse direction,
not a guaranteed exact undo. -/
theorem C3_amended (cfg : Config) (ip : Str) (tp : Transport) (req : Msg)
    (ex : ExchangeRes) (tr : TransferRes) (q : Question) (qs : List Question)
    (s d : Str) (r : Msg) (rq : Question) (rqs : List Question)
    (hq : req.question = q :: qs)
    (hnt : isTransfer req = false)
    (hfind : cfg.remaps.find? (fun p => List.isSuffixOf p.1 q.name) = some (s, d))
    (hs : s ≠ []) (hd : d ≠ [])
    (herr : ex.err = none)
    (hresp : ex.resp = some r)
    (hrq : r.question = rq :: rqs) :
    ReplOnceLeftmost s d q.name ((applyRemap cfg.remaps q.name).1)
    ∧ ∃ r2, route cfg ip tp req ex tr = Outcome.wrote r2
        ∧ r2.meta = r.meta
        ∧ (∃ qn2, r2.question = { rq with name := qn2 } :: rqs
            ∧ ReplOnceOrAbsent d s rq.name qn2)
        ∧ List.Forall₂
            (fun a b => b.rdata = a.rdata ∧ ReplOnceOrAbsent d s a.name b.name)
            r.answer r2.answer := by
  have hsuf : List.isSuffixOf s q.name = true := by
    have h := List.find?_some hfind
    simpa using h
  have hocc : occursIn s q.name = true := occursIn_of_isSuffixOf hsuf
  have hAR : applyRemap cfg.remaps q.name = (replace1 q.name s d, s, d) := by
    unfold applyRemap
    rw [hfind]
  have hall : allowed cfg.transferIPs ip req = true :=
    allowed_of_not_transfer cfg.transferIPs ip req hnt
  have hnt2 : isTransfer { req with
      question := { q with name := (applyRemap cfg.remaps q.name).1 } :: qs } = false := by
    rw [isTransfer_set_name req q qs _ hq]
    exact hnt
  have herr2 : ex.err ≠ some ExchErr.other := by simp [herr]
  constructor
  · rw [hAR]
    exact replace1_leftmost hs hocc
  · rw [route_proxy cfg ip tp req ex tr q qs hq hall]
    rw [proxy_ordinary_rw _ _ _ _ _ _ _ _ _ _ hnt2 herr2 hresp
      (by rw [hAR]; exact hs) hrq]
    refine ⟨_, rfl, rfl, ⟨replace1 rq.name (applyRemap cfg.remaps q.name).2.2
      (applyRemap cfg.remaps q.name).2.1, rfl, ?_⟩, ?_⟩
    · rw [hAR]
      exact replace1_spec hd
    · refine forall2_map_self _ _ _ (fun x _ => ⟨rfl, ?_⟩)
      rw [hAR]
      exact replace1_spec hd

/-- Claim C3 amended, witness: remap old.com. to new.com. on query
a.old.com.; the upstream echoes a.new.com. in question and answer, and both
are rewritten back by the leftmost-occurrence substitution. -/
theorem C3_amended_witness :
    ReplOnceLeftmost (strL "old.com.") (strL "new.com.") (strL "a.old.com.")
      ((applyRemap [(strL "old.com.", strL "new.com.")] (strL "a.old.com.")).1)
    ∧ ∃ r2, route ⟨strL "8.8.8.8:53", [], [(strL "old.com.", strL "new.com.")], []⟩
          (strL "7.7.7.7") Transport.udp
          ⟨[⟨strL "a.old.com.", 1⟩], [], 0⟩
          ⟨some ⟨[⟨strL "a.new.com.", 1⟩], [⟨strL "a.new.com.", 9⟩], 3⟩, none⟩
          TransferRes.inErr
        = Outcome.wrote r2
        ∧ r2.meta = (⟨[⟨strL "a.new.com.", 1⟩], [⟨strL "a.new.com.", 9⟩], 3⟩ : Msg).meta
        ∧ (∃ qn2, r2.question = { (⟨strL "a.new.com.", 1⟩ : Question) with name := qn2 } :: []
            ∧ ReplOnceOrAbsent (strL "new.com.") (strL "old.com.") (strL "a.new.com.") qn2)
        ∧ List.Forall₂
            (fun a b => b.rdata = a.rdata
              ∧ ReplOnceOrAbsent (strL "new.com.") (strL "old.com.") a.name b.name)
            [(⟨strL "a.new.com.", 9⟩ : RR)] r2.answer :=
  C3_amended ⟨strL "8.8.8.8:53", [], [(strL "old.com.", strL "new.com.")], []⟩
    (strL "7.7.7.7") Transport.udp ⟨[⟨strL "a.old.com.", 1⟩], [], 0⟩
    ⟨some ⟨[⟨strL "a.new.com.", 1⟩], [⟨strL "a.new.com.", 9⟩], 3⟩, none⟩
    TransferRes.inErr ⟨strL "a.old.com.", 1⟩ []
    (strL "old.com.") (strL "new.com.")
    ⟨[⟨strL "a.new.com.", 1⟩], [⟨strL "a.new.com.", 9⟩], 3⟩
    ⟨strL "a.new.com.", 1⟩ []
    rfl (by decide) (by decide) (by decide) (by decide) rfl rfl rfl

/-- Claim C5, evaluated at the failing input: remap old.com. to new.com.,
ordinary query a.old.com. over UDP, and an upstream reply whose question
section is empty.  The handler hits `resp.Question[0]` and panics: no
response — normal or failure — is delivered to the client, contradicting
the claim (which correctly states the specified behaviour). -/
theorem C5_panic_on_malformed_upstream :
    route ⟨strL "8.8.8.8:53", [], [(strL "old.com.", strL "new.com.")], []⟩
        (strL "7.7.7.7") Transport.udp
        ⟨[⟨strL "a.old.com.", 1⟩], [], 0⟩
        ⟨some ⟨[], [], 0⟩, none⟩
        TransferRes.inErr
      = Outcome.panicked := by decide
